import Mathlib

/-!
Shallow embedding of the upstream pool manager and request-dispatch engine of
the deepl-keys-to-deeplx relay (src/main.go).  Pure data transformations are
translated directly; network calls (the DeepL / DeepLX / Google HTTP posts and
the liveness probes) are modelled as injected oracles, and the sequential
semantics of one goroutine is modelled by explicit state passing.  Random
number generation (math/rand/v2 IntN) is modelled by consuming a stream of
naturals, with the `IntN 0` panic made explicit.
-/

set_option autoImplicit false

namespace DLX

/-- Request shape of the account-family (DeepL) upstream protocol
(struct deepLReq in main.go). -/
structure DeepLReq where
  text : List String
  targetLang : String
  tagHandling : String
deriving DecidableEq

/-- One translation entry of a DeepL response. -/
structure DeepLTranslation where
  detectedSourceLang : String
  text : String
deriving DecidableEq

/-- Response shape of the account-family upstream (struct deepLResp).
`translations = none` models a Go nil slice (field absent or null in the JSON),
while `some []` models a present but empty array: Go's json decoding
distinguishes the two and checkAlive tests `Translations == nil`. -/
structure DeepLResp where
  translations : Option (List DeepLTranslation)
  message : String
deriving DecidableEq

/-- Inbound request / endpoint-family request shape (struct deepLXReq). -/
structure DeepLXReq where
  text : String
  sourceLang : String
  targetLang : String
  tagHandling : String
deriving DecidableEq

/-- Endpoint-family response shape (struct deepLXResp). -/
structure DeepLXResp where
  code : Nat
  id : Nat
  data : String
  alternatives : List String
deriving DecidableEq

/-- Failure of an upstream HTTP call (transport error, non-200 status,
429 body, decode failure, io.EOF); which kind does not matter to the pool
logic, only that an error was returned. -/
inductive GoErr where
  | transport
  | tooManyRequests
  | eof
  | httpStatus (s : String)
  | decodeFailure
deriving DecidableEq

/-- The two alive sets of safeAliveKeysAndURLs (keys = account credentials,
urls = endpoint URLs).  The RWMutex is not represented: we model the
sequential semantics of one request handler. -/
structure Pool where
  keys : List String
  urls : List String
deriving DecidableEq

/-! ### String helpers

The Go code uses strings.TrimSpace, strings.HasPrefix and a \p{Han} regexp.
They are modelled on the character list of a `String` so that everything
kernel-evaluates. -/

/-- Model of strings.TrimSpace: drop leading and trailing whitespace. -/
def trimChars (cs : List Char) : List Char :=
  ((cs.dropWhile Char.isWhitespace).reverse.dropWhile Char.isWhitespace).reverse

/-- TrimSpace on strings. -/
def trimString (s : String) : String :=
  ⟨trimChars s.data⟩

/-- Model of strings.HasPrefix. -/
def hasPrefixStr (s p : String) : Bool :=
  p.data.isPrefixOf s.data

/-- A configuration line (already trimmed) that parseKeysAndURLs skips. -/
def isCommentLine (t : String) : Bool :=
  hasPrefixStr t "#" || hasPrefixStr t "//"

/-- Unicode Han script code point ranges, as matched by Go's regexp \p{Han}. -/
def hanRanges : List (Nat × Nat) :=
  [(0x2E80, 0x2E99), (0x2E9B, 0x2EF3), (0x2F00, 0x2FD5), (0x3005, 0x3005),
   (0x3007, 0x3007), (0x3021, 0x3029), (0x3038, 0x303B), (0x3400, 0x4DBF),
   (0x4E00, 0x9FFF), (0xF900, 0xFA6D), (0xFA70, 0xFAD9), (0x16FE2, 0x16FE3),
   (0x16FF0, 0x16FF1), (0x20000, 0x2A6DF), (0x2A700, 0x2B739),
   (0x2B740, 0x2B81D), (0x2B820, 0x2CEA1), (0x2CEB0, 0x2EBE0),
   (0x2F800, 0x2FA1D), (0x30000, 0x3134A), (0x31350, 0x323AF)]

/-- Whether a character belongs to the Han script. -/
def isHan (c : Char) : Bool :=
  hanRanges.any (fun r => decide (r.1 ≤ c.toNat ∧ c.toNat ≤ r.2))

/-- Model of containsChinese (main.go line 317): the regexp \p{Han} matches
the text iff some character of the text is in the Han script. -/
def containsChinese (text : String) : Bool :=
  text.data.any isHan

/-! ### Eviction (safeAliveKeysAndURLs.removeKeyOrURL) -/

/-- Core of removeKeyOrURL (main.go lines 137-159): scan for the first
element equal to `x`; if found, overwrite it with the last element and drop
the last element (swap-with-last removal), returning true; otherwise return
false and leave the list unchanged. -/
def removeSwapLast (x : String) : List String → Bool × List String
  | [] => (false, [])
  | a :: as =>
    if a = x then
      match as with
      | [] => (true, [])
      | b :: bs => (true, (b :: bs).getLastD "" :: (b :: bs).dropLast)
    else
      let r := removeSwapLast x as
      (r.1, a :: r.2)

/-- removeKeyOrURL on the pool: `isKey` selects which of the two sets the
element is removed from. -/
def removeKeyOrURL (p : Pool) (isKey : Bool) (x : String) : Bool × Pool :=
  if isKey then
    let r := removeSwapLast x p.keys
    (r.1, { p with keys := r.2 })
  else
    let r := removeSwapLast x p.urls
    (r.1, { p with urls := r.2 })

/-! ### Configuration parsing (parseKeysAndURLs) -/

/-- The scanner loop of parseKeysAndURLs (main.go lines 174-188), threading
the accumulated keys, urls and the isEmpty flag.  Every non-comment line,
including one that trims to the empty string, clears isEmpty and is
classified: endpoint if the trimmed line begins with "http", credential
otherwise. -/
def parseLoop : List String → List String × List String × Bool →
    List String × List String × Bool
  | [], acc => acc
  | l :: ls, (keys, urls, isEmpty) =>
    let t := trimString l
    if isCommentLine t then
      parseLoop ls (keys, urls, isEmpty)
    else if hasPrefixStr t "http" then
      parseLoop ls (keys, urls ++ [t], false)
    else
      parseLoop ls (keys ++ [t], urls, false)

/-- parseKeysAndURLs on the lines of apis.txt (the file read and the scanner
are external; the line list is the input).  Fails with "apis.txt is empty"
iff the isEmpty flag survived the loop. -/
def parseLines (lines : List String) : Except String (List String × List String) :=
  let r := parseLoop lines ([], [], true)
  if r.2.2 then .error "apis.txt is empty"
  else .ok (r.1, r.2.1)

/-- parseKeysAndURLs including the os.Open failure case: `none` models an
unreadable apis.txt. -/
def parseKeysAndURLs (cfg : Option (List String)) :
    Except String (List String × List String) :=
  match cfg with
  | none => .error "open apis.txt: no such file or directory"
  | some lines => parseLines lines

/-! ### Liveness probe (checkAlive) -/

/-- checkAlive (main.go lines 201-247).  The upstream posts are oracles
`kp` / `up` giving the outcome of the one test translation.  Account family:
dead on any post error, dead when the decoded Translations slice is nil
(quota exceeded or unknown reason), alive otherwise.  Endpoint family: dead
on post error or embedded code ≠ 200.  The Go error component of the return
value is always nil, modelled as `none`. -/
def checkAlive (kp : String → Except GoErr DeepLResp)
    (up : String → Except GoErr DeepLXResp)
    (isKey : Bool) (keyOrURL : String) : Bool × Option GoErr :=
  if isKey then
    match kp keyOrURL with
    | .error _ => (false, none)
    | .ok lResp =>
      match lResp.translations with
      | none => (false, none)
      | some _ => (true, none)
  else
    match up keyOrURL with
    | .error _ => (false, none)
    | .ok lxResp =>
      if lxResp.code = 200 then (true, none) else (false, none)

/-! ### Refresh (runCheck) -/

/-- Process-wide state touched by runCheck and handleForward: the pool, the
isChecking flag, the configuration source (apis.txt contents, none when
unreadable), the two probe oracles, and a counter of network calls made
(each probe and each translation post is one call). -/
structure Sys where
  pool : Pool
  isChecking : Bool
  config : Option (List String)
  keyProbe : String → Except GoErr DeepLResp
  urlProbe : String → Except GoErr DeepLXResp
  calls : Nat

/-- Error result of runCheck: the mutual-exclusion error errIsChecking, or a
configuration error message (propagated from parseKeysAndURLs). -/
inductive CheckErr where
  | isChecking
  | cfg (msg : String)
deriving DecidableEq

/-- The body of runCheck after the isChecking guard (main.go lines 260-314):
re-read the configuration, fan probes out over every entry, and replace both
alive sets with the probe survivors.  The concurrent fan-out joins on a
WaitGroup before the replacement, so its sequential effect is the filter of
each configured list by its probe outcome; the append order of the alive
slices is modelled as configuration order.  Each probe is one network call. -/
def runCheckBody (s : Sys) : Except CheckErr (Nat × Nat) × Sys :=
  match parseKeysAndURLs s.config with
  | .error m => (.error (.cfg m), s)
  | .ok (keys, urls) =>
    (.ok (keys.length, urls.length),
     { s with
        pool := ⟨keys.filter (fun k => (checkAlive s.keyProbe s.urlProbe true k).1),
                 urls.filter (fun u => (checkAlive s.keyProbe s.urlProbe false u).1)⟩,
        calls := s.calls + keys.length + urls.length })

/-- runCheck (main.go lines 252-315): fail immediately with errIsChecking if
a refresh is in progress, otherwise set the flag, run the body, and clear the
flag on every exit path (the deferred assignment). -/
def runCheck (s : Sys) : Except CheckErr (Nat × Nat) × Sys :=
  if s.isChecking then (.error .isChecking, s)
  else
    let r := runCheckBody { s with isChecking := true }
    (r.1, { r.2 with isChecking := false })

/-! ### Dispatch engine (handleForward)

handleForward (main.go lines 368-530) is a loop via the reTranslate label.
We model one request handler sequentially: the decoded body is a constant of
the request (`none` when json decoding fails, giving the 400 response), the
random source is a consumed stream of naturals, and the outcomes of the
translation posts are consumed streams of adapter results.  `forceUseDeepL`
is declared before the reTranslate label, so it persists across iterations;
`use` is declared after the label, so it is re-zeroed on every iteration. -/

/-- Environment of one in-flight request: the shared state plus the oracles
consumed by this request (random stream, prepared outcomes of the DeepL and
DeepLX posts, and the Google translate call as a function of its inputs). -/
structure Env where
  sys : Sys
  rand : List Nat
  keyPosts : List (Except GoErr DeepLResp)
  urlPosts : List (Except GoErr DeepLXResp)
  google : String → String → String → Except String String

/-- Final result of handleForward for one request: an http.Error response, a
successful JSON response (with whether Google fallback text replaced the data
and the final value of forceUseDeepL), a Go runtime panic (rand.IntN with
bound 0), or fuel exhaustion of the model (the Go loop is unbounded). -/
inductive ForwardOutcome where
  | httpError (status : Nat) (msg : String)
  | response (r : DeepLXResp) (usedGoogle : Bool) (forced : Bool)
  | panicked
  | fuelOut
deriving DecidableEq

/-- Result of one reTranslate iteration: a final outcome, or a loop back to
the label carrying the (possibly updated) forceUseDeepL flag. -/
inductive StepRes where
  | done (o : ForwardOutcome) (env : Env)
  | retry (force : Bool) (env : Env)

/-- The forceUseDeepL flag a retry hands to the next iteration, `none` when
the iteration terminated instead. -/
def StepRes.retryForce : StepRes → Option Bool
  | .done _ _ => none
  | .retry f _ => some f

/-- True when the step keeps the override set: terminating steps count as
keeping it (there is no later attempt to force). -/
def StepRes.keepsForce : StepRes → Bool
  | .done _ _ => true
  | .retry f _ => f

/-- The force flag handed to the next iteration, false for terminal steps. -/
def StepRes.retryForceD : StepRes → Bool
  | .done _ _ => false
  | .retry f _ => f

/-- Whether an outcome is the Go panic. -/
def ForwardOutcome.isPanicO : ForwardOutcome → Bool
  | .panicked => true
  | _ => false

/-- Whether a step terminated in the Go panic. -/
def StepRes.isPanicStep : StepRes → Bool
  | .done o _ => o.isPanicO
  | .retry _ _ => false

/-- Model of math/rand/v2 rand.IntN for n > 0: consume one value from the
stream and reduce it modulo n.  (IntN panics for n = 0; the call sites below
return `panicked` in that case.) -/
def randIntN (r : List Nat) (n : Nat) : Nat × List Nat :=
  (r.headD 0 % n, r.tail)

/-- Busy message of the dispatch path (main.go line 393). -/
def busyMsg : String := "no available keys or urls, currently rechecking"

/-- Exhausted-pool message (main.go line 406). -/
def noAvailMsg : String := "no available keys and urls"

/-- Pool-exhaustion guard at the top of a dispatch attempt (main.go lines
383-413): if both alive sets are empty, run a synchronous refresh; map
errIsChecking to the busy 500, any other refresh error to a 500 with its
message, and a refresh that leaves both sets empty to the no-upstreams 500;
otherwise dispatch proceeds with the refreshed state. -/
def poolGuard (s : Sys) : Option ForwardOutcome × Sys :=
  if s.pool.keys = [] ∧ s.pool.urls = [] then
    match runCheck s with
    | (.error .isChecking, s2) => (some (.httpError 500 busyMsg), s2)
    | (.error (.cfg m), s2) => (some (.httpError 500 m), s2)
    | (.ok _, s2) =>
      if s2.pool.keys = [] ∧ s2.pool.urls = [] then
        (some (.httpError 500 noAvailMsg), s2)
      else (none, s2)
  else (none, s)

/-- Family selection (main.go lines 415-427).  `use` is freshly zeroed each
iteration; when the override is not active it becomes a coin flip when both
sets are non-empty, 1 when the key set is empty, and stays 0 otherwise.  When
the override is active the whole block is skipped and `use` stays 0. -/
def selectUse (force : Bool) (p : Pool) (rand : List Nat) : Nat × List Nat :=
  if force then (0, rand)
  else if p.keys ≠ [] ∧ p.urls ≠ [] then randIntN rand 2
  else if p.keys = [] then (1, rand)
  else (0, rand)

/-- The completeness-verification tail of an iteration (main.go lines
493-528): when enabled and the data has no Han character, either force the
DeepL override and loop back (endpoint attempt with at least one alive key),
or call Google translate and respond with its text on success / the primary
data on failure; otherwise respond with the primary data. -/
def finishAttempt (ec : Bool) (use : Nat) (lxReq : DeepLXReq)
    (lxResp : DeepLXResp) (force : Bool) (env : Env) : StepRes :=
  if ec && !containsChinese lxResp.data then
    if use = 1 && !(env.sys.pool.keys.isEmpty) then
      .retry true env
    else
      let g := env.google lxReq.text lxReq.sourceLang lxReq.targetLang
      let env3 := { env with sys := { env.sys with calls := env.sys.calls + 1 } }
      match g with
      | .error _ => .done (.response lxResp false force) env3
      | .ok t => .done (.response { lxResp with data := t } true force) env3
  else .done (.response lxResp false force) env

/-- Account-family branch of an iteration (main.go lines 442-473): pick a
uniformly random alive key (rand.IntN panics when the key set is empty), post
to DeepL; on post error evict the key and loop back; on zero translations
loop back without evicting; otherwise build the DeepLX-shaped response and
fall through to the completeness tail. -/
def keyAttempt (ec : Bool) (lxReq : DeepLXReq) (force : Bool) (env : Env) :
    StepRes :=
  if env.sys.pool.keys.length = 0 then .done .panicked env
  else
    let sel := randIntN env.rand env.sys.pool.keys.length
    let key := env.sys.pool.keys.getD sel.1 ""
    let post := env.keyPosts.headD (.error .transport)
    let env2 := { env with
        rand := sel.2
        keyPosts := env.keyPosts.tail
        sys := { env.sys with calls := env.sys.calls + 1 } }
    match post with
    | .error _ =>
      let ev := removeKeyOrURL env2.sys.pool true key
      .retry force { env2 with sys := { env2.sys with pool := ev.2 } }
    | .ok lResp =>
      let ts := lResp.translations.getD []
      if ts.length = 0 then .retry force env2
      else
        let t := (ts.headD ⟨"", ""⟩).text
        finishAttempt ec 0 lxReq ⟨200, 0, t, [t]⟩ force env2

/-- Endpoint-family branch of an iteration (main.go lines 474-491): pick a
uniformly random alive url (rand.IntN panics when the url set is empty), post
the request; on post error or embedded code ≠ 200 evict the url and loop
back; otherwise fall through to the completeness tail with the response. -/
def urlAttempt (ec : Bool) (lxReq : DeepLXReq) (force : Bool) (env : Env) :
    StepRes :=
  if env.sys.pool.urls.length = 0 then .done .panicked env
  else
    let sel := randIntN env.rand env.sys.pool.urls.length
    let u := env.sys.pool.urls.getD sel.1 ""
    let post := env.urlPosts.headD (.error .transport)
    let env2 := { env with
        rand := sel.2
        urlPosts := env.urlPosts.tail
        sys := { env.sys with calls := env.sys.calls + 1 } }
    match post with
    | .error _ =>
      let ev := removeKeyOrURL env2.sys.pool false u
      .retry force { env2 with sys := { env2.sys with pool := ev.2 } }
    | .ok lxResp =>
      if lxResp.code = 200 then finishAttempt ec 1 lxReq lxResp force env2
      else
        let ev := removeKeyOrURL env2.sys.pool false u
        .retry force { env2 with sys := { env2.sys with pool := ev.2 } }

/-- The part of an iteration after the pool guard: select the family, decode
the request body (a failure responds 400 before any upstream selection), and
run the chosen branch. -/
def attemptBody (ec : Bool) (body : Option DeepLXReq) (force : Bool)
    (env : Env) : StepRes :=
  let sel := selectUse force env.sys.pool env.rand
  let env1 := { env with rand := sel.2 }
  match body with
  | none => .done (.httpError 400 "invalid request body") env1
  | some lxReq =>
    if sel.1 = 0 then keyAttempt ec lxReq force env1
    else urlAttempt ec lxReq force env1

/-- One full reTranslate iteration of handleForward. -/
def attempt (ec : Bool) (body : Option DeepLXReq) (force : Bool)
    (env : Env) : StepRes :=
  let gp := poolGuard env.sys
  match gp.1 with
  | some o => .done o { env with sys := gp.2 }
  | none => attemptBody ec body force { env with sys := gp.2 }

/-- The reTranslate loop, fuel-bounded (the Go loop itself is unbounded). -/
def dispatch (ec : Bool) (body : Option DeepLXReq) :
    Nat → Bool → Env → ForwardOutcome × Env
  | 0, _, env => (.fuelOut, env)
  | Nat.succ fuel, force, env =>
    match attempt ec body force env with
    | .done o e => (o, e)
    | .retry f e => dispatch ec body fuel f e

/-- Entry point of handleForward for one request: forceUseDeepL starts
false. -/
def handleForward (ec : Bool) (body : Option DeepLXReq) (fuel : Nat)
    (env : Env) : ForwardOutcome × Env :=
  dispatch ec body fuel false env

deriving instance DecidableEq for Except

/-! ### Concrete fixtures used by witnesses and counterexamples -/

/-- An account-family post oracle that always fails at transport level. -/
def probeKeyDead : String → Except GoErr DeepLResp := fun _ => .error .transport

/-- An endpoint-family post oracle that always fails at transport level. -/
def probeURLDead : String → Except GoErr DeepLXResp := fun _ => .error .transport

/-- A Google translate oracle that always fails. -/
def googleFail : String → String → String → Except String String :=
  fun _ _ _ => .error "google translate failed"

/-- A system state with one alive key and one alive url. -/
def sysKU : Sys :=
  { pool := ⟨["k"], ["u"]⟩, isChecking := false, config := none,
    keyProbe := probeKeyDead, urlProbe := probeURLDead, calls := 0 }

/-- A well-formed inbound request targeting English. -/
def reqEN : DeepLXReq := ⟨"hello", "en", "EN", ""⟩

/-- Request environment: a url attempt will succeed with the untranslated
text "hello", and the key attempt after it will fail at transport level. -/
def envC2 : Env :=
  { sys := sysKU, rand := [1, 0, 0],
    keyPosts := [.error .transport],
    urlPosts := [.ok ⟨200, 0, "hello", []⟩],
    google := googleFail }

/-- Request environment entered with the forced override active whose one
account attempt fails at transport level. -/
def envC1 : Env :=
  { sys := sysKU, rand := [0], keyPosts := [.error .transport], urlPosts := [],
    google := googleFail }

/-- A system state whose configuration has the same credential line twice,
with a probe that reports every key alive. -/
def sysDupCfg : Sys :=
  { pool := ⟨[], []⟩, isChecking := false, config := some ["k", "k"],
    keyProbe := fun _ => .ok ⟨some [⟨"EN", "你好"⟩], ""⟩,
    urlProbe := probeURLDead, calls := 0 }

/-- A system state with an exhausted pool and a one-key configuration whose
probe reports the key dead. -/
def sysEmptyCfg : Sys :=
  { pool := ⟨[], []⟩, isChecking := false, config := some ["k"],
    keyProbe := probeKeyDead, urlProbe := probeURLDead, calls := 0 }

/-- Request environment on the exhausted-pool state. -/
def envC7 : Env :=
  { sys := sysEmptyCfg, rand := [], keyPosts := [], urlPosts := [],
    google := googleFail }

/-- A system state with an exhausted pool and a refresh already in
progress. -/
def sysBusy : Sys :=
  { pool := ⟨[], []⟩, isChecking := true, config := some ["k"],
    keyProbe := probeKeyDead, urlProbe := probeURLDead, calls := 0 }

/-- Request environment on the busy exhausted-pool state. -/
def envBusy : Env :=
  { sys := sysBusy, rand := [], keyPosts := [], urlPosts := [],
    google := googleFail }

/-- A system state whose one key answers the probe with a present but empty
translations array. -/
def sysEmptyTrans : Sys :=
  { pool := ⟨[], []⟩, isChecking := false, config := some ["k"],
    keyProbe := fun _ => .ok ⟨some [], ""⟩,
    urlProbe := probeURLDead, calls := 0 }

/-- Request environment on the healthy two-upstream state with no prepared
oracle outcomes. -/
def envKU : Env :=
  { sys := sysKU, rand := [], keyPosts := [], urlPosts := [],
    google := googleFail }

/-- Request environment whose single url attempt succeeds with the data `d`
(parametrized so the result text and the request are free). -/
def envC10 (d : String) : Env :=
  { sys := sysKU, rand := [1, 0], keyPosts := [],
    urlPosts := [.ok ⟨200, 0, d, []⟩], google := googleFail }

/-! ### Lemmas about parsing and eviction -/

/-- Characterization of the scanner loop: the keys are the trimmed
non-comment lines that do not begin with "http", the urls those that do, and
the isEmpty flag survives iff every line is a comment. -/
theorem parseLoop_eq (lines : List String) (keys urls : List String) (e : Bool) :
    parseLoop lines (keys, urls, e) =
      (keys ++ (lines.map trimString).filter
          (fun t => !isCommentLine t && !hasPrefixStr t "http"),
       urls ++ (lines.map trimString).filter
          (fun t => !isCommentLine t && hasPrefixStr t "http"),
       e && lines.all (fun l => isCommentLine (trimString l))) := by
  induction lines generalizing keys urls e with
  | nil => simp [parseLoop]
  | cons l ls ih =>
    by_cases hc : isCommentLine (trimString l)
    · simp [parseLoop, hc, ih]
    · by_cases hh : hasPrefixStr (trimString l) "http"
      · simp [parseLoop, hc, hh, ih]
      · simp [parseLoop, hc, hh, ih]

/-- parseKeysAndURLs fails on a readable file exactly when every line is a
comment (a line trimming to the empty string is not a comment and counts as
content). -/
theorem parseLines_error_iff (lines : List String) :
    parseLines lines = .error "apis.txt is empty" ↔
      lines.all (fun l => isCommentLine (trimString l)) = true := by
  unfold parseLines
  rw [parseLoop_eq]
  cases h : lines.all (fun l => isCommentLine (trimString l)) <;> simp [h]

/-- On success, the two returned lists are exactly the trimmed non-comment
lines, split by the "http" test. -/
theorem parseLines_ok (lines keys urls : List String)
    (h : parseLines lines = .ok (keys, urls)) :
    keys = (lines.map trimString).filter
        (fun t => !isCommentLine t && !hasPrefixStr t "http") ∧
    urls = (lines.map trimString).filter
        (fun t => !isCommentLine t && hasPrefixStr t "http") := by
  unfold parseLines at h
  rw [parseLoop_eq] at h
  by_cases ha : lines.all (fun l => isCommentLine (trimString l)) = true
  · simp [ha] at h
  · simp only [Bool.not_eq_true] at ha
    simp [ha] at h
    exact ⟨h.1.symm, h.2.symm⟩

/-- Scanning for an absent element leaves the list unchanged and reports
false. -/
theorem removeSwapLast_not_mem (x : String) (l : List String) (h : x ∉ l) :
    removeSwapLast x l = (false, l) := by
  induction l with
  | nil => rfl
  | cons a as ih =>
    have ha : ¬a = x := fun e => h (e ▸ List.mem_cons_self a as)
    have ih2 := ih (fun hm => h (List.mem_cons_of_mem a hm))
    simp [removeSwapLast, ha, ih2]

/-- Swap-with-last removal of a present element reports true and produces a
permutation of erasing the first occurrence. -/
theorem removeSwapLast_mem (x : String) (l : List String) (h : x ∈ l) :
    (removeSwapLast x l).1 = true ∧
      (removeSwapLast x l).2.Perm (l.erase x) := by
  induction l with
  | nil => cases h
  | cons a as ih =>
    by_cases ha : a = x
    · subst ha
      cases as with
      | nil => simp [removeSwapLast, List.erase_cons_head]
      | cons b bs =>
        have hne : (b :: bs) ≠ [] := by simp
        have h1 : (b :: bs).dropLast ++ [(b :: bs).getLast hne] = b :: bs :=
          List.dropLast_append_getLast hne
        have h2 : (b :: bs).getLastD "" = (b :: bs).getLast hne := by
          rw [List.getLastD_eq_getLast?, List.getLast?_eq_getLast_of_ne_nil hne]
          rfl
        have hp : ((b :: bs).getLast hne :: (b :: bs).dropLast).Perm (b :: bs) := by
          conv_rhs => rw [← h1]
          exact (List.perm_append_singleton _ _).symm
        refine ⟨by simp [removeSwapLast], ?_⟩
        have hr : (removeSwapLast a (a :: b :: bs)).2
            = (b :: bs).getLastD "" :: (b :: bs).dropLast := by
          simp [removeSwapLast]
        rw [hr, h2, List.erase_cons_head]
        exact hp
    · have hm : x ∈ as := by
        rcases List.mem_cons.mp h with h1 | h1
        · exact absurd h1.symm ha
        · exact h1
      obtain ⟨h1, h2⟩ := ih hm
      refine ⟨by simp [removeSwapLast, ha, h1], ?_⟩
      simp only [removeSwapLast, ha, if_neg ha]
      rw [List.erase_cons_tail (by simp [ha])]
      exact List.Perm.cons a h2

/-- Removal never increases any element's multiplicity. -/
theorem removeSwapLast_count_le (x y : String) (l : List String) :
    (removeSwapLast x l).2.count y ≤ l.count y := by
  by_cases h : x ∈ l
  · rw [(removeSwapLast_mem x l h).2.count_eq]
    rw [List.count_erase]
    exact Nat.sub_le _ _
  · rw [removeSwapLast_not_mem x l h]

/-- Removal of a present element decrements its own multiplicity. -/
theorem removeSwapLast_count_self (x : String) (l : List String) (h : x ∈ l) :
    (removeSwapLast x l).2.count x = l.count x - 1 := by
  rw [(removeSwapLast_mem x l h).2.count_eq, List.count_erase_self]

/-- Removal preserves the no-duplicates property. -/
theorem removeSwapLast_nodup (x : String) (l : List String) (h : l.Nodup) :
    (removeSwapLast x l).2.Nodup := by
  by_cases hm : x ∈ l
  · exact ((removeSwapLast_mem x l hm).2.nodup_iff).mpr (h.erase x)
  · rw [removeSwapLast_not_mem x l hm]; exact h

/-- Removing an element that occurs at most once gives true then false on
two successive calls on the same list. -/
theorem removeSwapLast_twice (x : String) (l : List String)
    (h : l.count x ≤ 1) (hm : x ∈ l) :
    (removeSwapLast x l).1 = true ∧
      (removeSwapLast x (removeSwapLast x l).2).1 = false := by
  refine ⟨(removeSwapLast_mem x l hm).1, ?_⟩
  have hc : (removeSwapLast x l).2.count x = l.count x - 1 :=
    removeSwapLast_count_self x l hm
  have h1 : l.count x ≠ 0 := fun h0 => List.count_eq_zero.mp h0 hm
  have h0 : (removeSwapLast x l).2.count x = 0 := by omega
  rw [removeSwapLast_not_mem x _ (List.count_eq_zero.mp h0)]

/-! ### Lemmas about the refresh and the dispatch engine -/

/-- runCheck on a busy state: immediate error, state untouched. -/
theorem runCheck_busy (s : Sys) (h : s.isChecking = true) :
    runCheck s = (.error .isChecking, s) := by
  simp [runCheck, h]

/-- runCheck when the configuration read fails: the error propagates, the
pool is untouched and the flag ends cleared. -/
theorem runCheck_cfg_error (s : Sys) (m : String) (h : s.isChecking = false)
    (hp : parseKeysAndURLs s.config = .error m) :
    runCheck s = (.error (.cfg m), s) := by
  cases s with
  | mk pool b cfg kp up calls =>
    simp only at h hp
    subst h
    simp [runCheck, runCheckBody, hp]

/-- runCheck when it proceeds and the configuration parses: both alive sets
are replaced by the probe survivors, the totals are returned, and each
configured entry accounts for one probe call. -/
theorem runCheck_ok (s : Sys) (ks us : List String) (h : s.isChecking = false)
    (hp : parseKeysAndURLs s.config = .ok (ks, us)) :
    runCheck s = (.ok (ks.length, us.length),
      { s with
          pool := ⟨ks.filter (fun k => (checkAlive s.keyProbe s.urlProbe true k).1),
                   us.filter (fun u => (checkAlive s.keyProbe s.urlProbe false u).1)⟩
          isChecking := false
          calls := s.calls + ks.length + us.length }) := by
  cases s with
  | mk pool b cfg kp up calls =>
    simp only at h hp
    subst h
    simp [runCheck, runCheckBody, hp]

/-- On a non-exhausted pool the guard is a no-op. -/
theorem poolGuard_not_empty (s : Sys)
    (h : ¬(s.pool.keys = [] ∧ s.pool.urls = [])) :
    poolGuard s = (none, s) := by
  simp [poolGuard, h]

/-- Every terminal outcome of the guard is an http error, never the panic. -/
theorem poolGuard_some_httpError (s : Sys) (o : ForwardOutcome)
    (h : (poolGuard s).1 = some o) : o.isPanicO = false := by
  by_cases he : s.pool.keys = [] ∧ s.pool.urls = []
  · rcases hr : runCheck s with ⟨r, s2⟩
    cases r with
    | error e =>
      cases e with
      | isChecking =>
        have hpg : poolGuard s = (some (.httpError 500 busyMsg), s2) := by
          simp only [poolGuard, hr]
          rw [if_pos he]
        rw [hpg] at h
        simp at h
        subst h
        rfl
      | cfg m =>
        have hpg : poolGuard s = (some (.httpError 500 m), s2) := by
          simp only [poolGuard, hr]
          rw [if_pos he]
        rw [hpg] at h
        simp at h
        subst h
        rfl
    | ok v =>
      by_cases he2 : s2.pool.keys = [] ∧ s2.pool.urls = []
      · have hpg : poolGuard s = (some (.httpError 500 noAvailMsg), s2) := by
          simp only [poolGuard, hr]
          rw [if_pos he, if_pos he2]
        rw [hpg] at h
        simp at h
        subst h
        rfl
      · have hpg : poolGuard s = (none, s2) := by
          simp only [poolGuard, hr]
          rw [if_pos he, if_neg he2]
        rw [hpg] at h
        simp at h
  · rw [poolGuard_not_empty s he] at h
    simp at h

/-- When the guard lets dispatch proceed, the state it hands over has a
non-exhausted pool (the degenerate case is handled before selection). -/
theorem poolGuard_none_not_empty (s : Sys) (h : (poolGuard s).1 = none) :
    ¬((poolGuard s).2.pool.keys = [] ∧ (poolGuard s).2.pool.urls = []) := by
  by_cases he : s.pool.keys = [] ∧ s.pool.urls = []
  · rcases hr : runCheck s with ⟨r, s2⟩
    cases r with
    | error e =>
      cases e with
      | isChecking =>
        have hpg : poolGuard s = (some (.httpError 500 busyMsg), s2) := by
          simp only [poolGuard, hr]
          rw [if_pos he]
        rw [hpg] at h
        simp at h
      | cfg m =>
        have hpg : poolGuard s = (some (.httpError 500 m), s2) := by
          simp only [poolGuard, hr]
          rw [if_pos he]
        rw [hpg] at h
        simp at h
    | ok v =>
      by_cases he2 : s2.pool.keys = [] ∧ s2.pool.urls = []
      · have hpg : poolGuard s = (some (.httpError 500 noAvailMsg), s2) := by
          simp only [poolGuard, hr]
          rw [if_pos he, if_pos he2]
        rw [hpg] at h
        simp at h
      · have hpg : poolGuard s = (none, s2) := by
          simp only [poolGuard, hr]
          rw [if_pos he, if_neg he2]
        rw [hpg]
        exact he2
  · rw [poolGuard_not_empty s he]
    exact he

/-- The completeness tail never panics. -/
theorem finishAttempt_not_panic (ec : Bool) (use : Nat) (q : DeepLXReq)
    (r : DeepLXResp) (f : Bool) (env : Env) :
    (finishAttempt ec use q r f env).isPanicStep = false := by
  unfold finishAttempt
  by_cases h1 : (ec && !containsChinese r.data) = true
  · rw [if_pos h1]
    by_cases h2 : (use = 1 && !env.sys.pool.keys.isEmpty) = true
    · rw [if_pos h2]; rfl
    · rw [if_neg h2]
      cases env.google q.text q.sourceLang q.targetLang <;> rfl
  · rw [if_neg h1]; rfl

/-- The completeness tail never clears a set override: it terminates or
retries with the override set. -/
theorem finishAttempt_keepsForce (ec : Bool) (use : Nat) (q : DeepLXReq)
    (r : DeepLXResp) (f : Bool) (env : Env) :
    (finishAttempt ec use q r f env).keepsForce = true := by
  unfold finishAttempt
  by_cases h1 : (ec && !containsChinese r.data) = true
  · rw [if_pos h1]
    by_cases h2 : (use = 1 && !env.sys.pool.keys.isEmpty) = true
    · rw [if_pos h2]; rfl
    · rw [if_neg h2]
      cases env.google q.text q.sourceLang q.targetLang <;> rfl
  · rw [if_neg h1]; rfl

/-- With completeness verification disabled the tail always responds with
the primary result. -/
theorem finishAttempt_ec_false (use : Nat) (q : DeepLXReq) (r : DeepLXResp)
    (f : Bool) (env : Env) :
    finishAttempt false use q r f env = .done (.response r false f) env := by
  simp [finishAttempt]

/-- The account branch entered with the override active keeps it active. -/
theorem keyAttempt_keepsForce (ec : Bool) (q : DeepLXReq) (env : Env) :
    (keyAttempt ec q true env).keepsForce = true := by
  obtain ⟨sys, rand, kps, ups, g⟩ := env
  by_cases hl : sys.pool.keys = []
  · simp [keyAttempt, List.length_eq_zero, hl, StepRes.keepsForce]
  · cases kps with
    | nil => simp [keyAttempt, List.length_eq_zero, hl, StepRes.keepsForce]
    | cons p ps =>
      cases p with
      | error e => simp [keyAttempt, List.length_eq_zero, hl, StepRes.keepsForce]
      | ok lResp =>
        by_cases ht : lResp.translations.getD [] = []
        · simp [keyAttempt, List.length_eq_zero, hl, ht, StepRes.keepsForce]
        · simp only [keyAttempt, List.length_eq_zero, hl, if_false, List.headD_cons,
            List.tail_cons, ht, List.length_eq_zero]
          simp [List.length_eq_zero, hl, ht]
          apply finishAttempt_keepsForce

/-- The endpoint branch entered with the override active keeps it active. -/
theorem urlAttempt_keepsForce (ec : Bool) (q : DeepLXReq) (env : Env) :
    (urlAttempt ec q true env).keepsForce = true := by
  obtain ⟨sys, rand, kps, ups, g⟩ := env
  by_cases hl : sys.pool.urls = []
  · simp [urlAttempt, List.length_eq_zero, hl, StepRes.keepsForce]
  · cases ups with
    | nil => simp [urlAttempt, List.length_eq_zero, hl, StepRes.keepsForce]
    | cons p ps =>
      cases p with
      | error e => simp [urlAttempt, List.length_eq_zero, hl, StepRes.keepsForce]
      | ok lxResp =>
        by_cases hc : lxResp.code = 200
        · simp [urlAttempt, List.length_eq_zero, hl, hc]
          apply finishAttempt_keepsForce
        · simp [urlAttempt, List.length_eq_zero, hl, hc, StepRes.keepsForce]

/-- A full iteration entered with the override active keeps it active: it
either terminates or retries with the override still set — the override is
never consumed. -/
theorem attempt_keepsForce (ec : Bool) (body : Option DeepLXReq) (env : Env) :
    (attempt ec body true env).keepsForce = true := by
  rcases hr : poolGuard env.sys with ⟨g, s2⟩
  cases g with
  | some o => simp [attempt, hr, StepRes.keepsForce]
  | none =>
    cases body with
    | none => simp [attempt, hr, attemptBody, StepRes.keepsForce]
    | some q =>
      simp [attempt, hr, attemptBody, selectUse]
      apply keyAttempt_keepsForce

/-- The account branch cannot panic when the key set is non-empty. -/
theorem keyAttempt_not_panic (ec : Bool) (q : DeepLXReq) (f : Bool) (env : Env)
    (hk : env.sys.pool.keys ≠ []) :
    (keyAttempt ec q f env).isPanicStep = false := by
  obtain ⟨sys, rand, kps, ups, g⟩ := env
  simp only at hk
  cases kps with
  | nil => simp [keyAttempt, List.length_eq_zero, hk, StepRes.isPanicStep]
  | cons p ps =>
    cases p with
    | error e => simp [keyAttempt, List.length_eq_zero, hk, StepRes.isPanicStep]
    | ok lResp =>
      by_cases ht : lResp.translations.getD [] = []
      · simp [keyAttempt, List.length_eq_zero, hk, ht, StepRes.isPanicStep]
      · simp [keyAttempt, List.length_eq_zero, hk, ht]
        apply finishAttempt_not_panic

/-- The endpoint branch cannot panic when the url set is non-empty. -/
theorem urlAttempt_not_panic (ec : Bool) (q : DeepLXReq) (f : Bool) (env : Env)
    (hu : env.sys.pool.urls ≠ []) :
    (urlAttempt ec q f env).isPanicStep = false := by
  obtain ⟨sys, rand, kps, ups, g⟩ := env
  simp only at hu
  cases ups with
  | nil => simp [urlAttempt, List.length_eq_zero, hu, StepRes.isPanicStep]
  | cons p ps =>
    cases p with
    | error e => simp [urlAttempt, List.length_eq_zero, hu, StepRes.isPanicStep]
    | ok lxResp =>
      by_cases hc : lxResp.code = 200
      · simp [urlAttempt, List.length_eq_zero, hu, hc]
        apply finishAttempt_not_panic
      · simp [urlAttempt, List.length_eq_zero, hu, hc, StepRes.isPanicStep]

/-- Without the override, family selection always lands on a non-empty set,
so selection after the guard cannot panic. -/
theorem attemptBody_no_panic_unforced (ec : Bool) (body : Option DeepLXReq)
    (env : Env) (h : ¬(env.sys.pool.keys = [] ∧ env.sys.pool.urls = [])) :
    (attemptBody ec body false env).isPanicStep = false := by
  cases body with
  | none => simp [attemptBody, StepRes.isPanicStep, ForwardOutcome.isPanicO]
  | some q =>
    by_cases hk : env.sys.pool.keys = []
    · have hu : env.sys.pool.urls ≠ [] := fun hu2 => h ⟨hk, hu2⟩
      have hs : selectUse false env.sys.pool env.rand = (1, env.rand) := by
        simp [selectUse, hk]
      simp [attemptBody, hs]
      apply urlAttempt_not_panic
      exact hu
    · by_cases hu : env.sys.pool.urls = []
      · have hs : selectUse false env.sys.pool env.rand = (0, env.rand) := by
          simp [selectUse, hk, hu]
        simp [attemptBody, hs]
        apply keyAttempt_not_panic
        exact hk
      · have hs : selectUse false env.sys.pool env.rand
            = (env.rand.head?.getD 0 % 2, env.rand.tail) := by
          simp [selectUse, hk, hu, randIntN]
        rcases Nat.mod_two_eq_zero_or_one (env.rand.head?.getD 0) with h2 | h2
        · simp [attemptBody, hs, h2]
          apply keyAttempt_not_panic
          exact hk
        · simp [attemptBody, hs, h2]
          apply urlAttempt_not_panic
          exact hu

/-- An iteration entered without the override never panics: the guard
handles the exhausted pool, and unforced selection is always in bounds. -/
theorem attempt_no_panic_unforced (ec : Bool) (body : Option DeepLXReq)
    (env : Env) : (attempt ec body false env).isPanicStep = false := by
  rcases hr : poolGuard env.sys with ⟨g, s2⟩
  cases g with
  | some o =>
    have hop := poolGuard_some_httpError env.sys o (by rw [hr])
    simp [attempt, hr, StepRes.isPanicStep, hop]
  | none =>
    have hne := poolGuard_none_not_empty env.sys (by rw [hr])
    rw [hr] at hne
    simp only [attempt, hr]
    exact attemptBody_no_panic_unforced ec body _ hne

/-- The account branch with verification disabled hands back an unset
override. -/
theorem keyAttempt_retryForceD (q : DeepLXReq) (env : Env) :
    (keyAttempt false q false env).retryForceD = false := by
  obtain ⟨sys, rand, kps, ups, g⟩ := env
  by_cases hl : sys.pool.keys = []
  · simp [keyAttempt, List.length_eq_zero, hl, StepRes.retryForceD]
  · cases kps with
    | nil => simp [keyAttempt, List.length_eq_zero, hl, StepRes.retryForceD]
    | cons p ps =>
      cases p with
      | error e => simp [keyAttempt, List.length_eq_zero, hl, StepRes.retryForceD]
      | ok lResp =>
        by_cases ht : lResp.translations.getD [] = []
        · simp [keyAttempt, List.length_eq_zero, hl, ht, StepRes.retryForceD]
        · simp [keyAttempt, List.length_eq_zero, hl, ht, finishAttempt_ec_false,
            StepRes.retryForceD]

/-- The endpoint branch with verification disabled hands back an unset
override. -/
theorem urlAttempt_retryForceD (q : DeepLXReq) (env : Env) :
    (urlAttempt false q false env).retryForceD = false := by
  obtain ⟨sys, rand, kps, ups, g⟩ := env
  by_cases hl : sys.pool.urls = []
  · simp [urlAttempt, List.length_eq_zero, hl, StepRes.retryForceD]
  · cases ups with
    | nil => simp [urlAttempt, List.length_eq_zero, hl, StepRes.retryForceD]
    | cons p ps =>
      cases p with
      | error e => simp [urlAttempt, List.length_eq_zero, hl, StepRes.retryForceD]
      | ok lxResp =>
        by_cases hc : lxResp.code = 200
        · simp [urlAttempt, List.length_eq_zero, hl, hc, finishAttempt_ec_false,
            StepRes.retryForceD]
        · simp [urlAttempt, List.length_eq_zero, hl, hc, StepRes.retryForceD]

/-- With completeness verification disabled, every retry hands force = false
to the next iteration (no site ever sets the override). -/
theorem attempt_retryForceD_false (body : Option DeepLXReq) (env : Env) :
    (attempt false body false env).retryForceD = false := by
  rcases hr : poolGuard env.sys with ⟨g, s2⟩
  cases g with
  | some o => simp [attempt, hr, StepRes.retryForceD]
  | none =>
    cases body with
    | none => simp [attempt, hr, attemptBody, StepRes.retryForceD]
    | some q =>
      by_cases hz : (selectUse false s2.pool env.rand).1 = 0
      · simp [attempt, hr, attemptBody, hz]
        apply keyAttempt_retryForceD
      · simp [attempt, hr, attemptBody, hz]
        apply urlAttempt_retryForceD

/-- With completeness verification disabled the whole dispatch loop never
panics: the override is never set, so every iteration is unforced. -/
theorem dispatch_ec_false_no_panic (body : Option DeepLXReq) (fuel : Nat) :
    ∀ env : Env, ((dispatch false body fuel false env).1).isPanicO = false := by
  induction fuel with
  | zero => intro env; rfl
  | succ n ih =>
    intro env
    rcases ha : attempt false body false env with ⟨o, e⟩ | ⟨f, e⟩
    · have hnp := attempt_no_panic_unforced false body env
      rw [ha] at hnp
      simp [dispatch, ha]
      exact hnp
    · have hf : f = false := by
        have hrf := attempt_retryForceD_false body env
        rw [ha] at hrf
        exact hrf
      subst hf
      simp [dispatch, ha]
      exact ih e

/-! ### Claim C4 -/

/-- C4 counterexample: from the empty pool, a refresh over a configuration
file with the duplicate line "k" (both probes alive) produces an alive key
set in which the upstream "k" occurs twice, refuting the claim that every
reachable pool state holds each upstream at most once within a set. -/
theorem upstream_duplicate_cex :
    (runCheck sysDupCfg).2.pool.keys.count "k" = 2 := by decide

/-- C4 (amended): each upstream appears in at most one of the two alive sets
(the refresh classifies a trimmed line by its "http" test, so no string can
be produced into both sets); within-set uniqueness holds after a refresh
provided the trimmed configuration lines are duplicate-free (a configuration
with duplicate lines produces duplicate occurrences); eviction never
increases any element's multiplicity and preserves duplicate-freeness. -/
theorem upstream_multiplicity_amended :
    (∀ (lines keys urls : List String) (x : String) (f g : String → Bool),
       parseLines lines = .ok (keys, urls) →
       x ∈ keys.filter f → x ∈ urls.filter g → False) ∧
    (∀ (lines keys urls : List String) (f g : String → Bool),
       parseLines lines = .ok (keys, urls) →
       (lines.map trimString).Nodup →
       (keys.filter f).Nodup ∧ (urls.filter g).Nodup) ∧
    (∀ (p : Pool) (isKey : Bool) (x y : String),
       (removeKeyOrURL p isKey x).2.keys.count y ≤ p.keys.count y ∧
       (removeKeyOrURL p isKey x).2.urls.count y ≤ p.urls.count y) ∧
    (∀ (p : Pool) (isKey : Bool) (x : String),
       p.keys.Nodup → p.urls.Nodup →
       (removeKeyOrURL p isKey x).2.keys.Nodup ∧
       (removeKeyOrURL p isKey x).2.urls.Nodup) := by
  refine ⟨?_, ?_, ?_, ?_⟩
  · intro lines keys urls x f g h hk hu
    obtain ⟨hke, hue⟩ := parseLines_ok lines keys urls h
    have h1 := (List.mem_filter.mp hk).1
    have h2 := (List.mem_filter.mp hu).1
    rw [hke] at h1
    rw [hue] at h2
    have p1 := (List.mem_filter.mp h1).2
    have p2 := (List.mem_filter.mp h2).2
    simp only [Bool.and_eq_true, Bool.not_eq_true'] at p1 p2
    rw [p1.2] at p2
    exact absurd p2.2 (by simp)
  · intro lines keys urls f g h hnd
    obtain ⟨hke, hue⟩ := parseLines_ok lines keys urls h
    subst hke
    subst hue
    exact ⟨(hnd.filter _).filter _, (hnd.filter _).filter _⟩
  · intro p isKey x y
    cases isKey <;>
      simp [removeKeyOrURL, removeSwapLast_count_le, Nat.le_refl]
  · intro p isKey x hk hu
    cases isKey <;>
      simp [removeKeyOrURL, removeSwapLast_nodup, hk, hu]

/-- C4 witness: the amended theorem applied to the two-line configuration
["k", "http://u"], whose refresh survivors are duplicate-free. -/
theorem upstream_multiplicity_witness :
    ((["k"].filter (fun _ => true)).Nodup ∧
      (["http://u"].filter (fun _ => true)).Nodup) :=
  upstream_multiplicity_amended.2.1 ["k", "http://u"] ["k"] ["http://u"]
    (fun _ => true) (fun _ => true) (by decide) (by decide)

/-! ### Claim C5 -/

/-- C5 counterexample: on the reachable pool state whose key set is
["k", "k"] (produced by a refresh over a duplicate-line configuration),
evicting "k" twice returns true twice, refuting the claim that for every
pool state the second eviction returns false. -/
theorem evict_duplicate_cex :
    (removeKeyOrURL ⟨["k", "k"], []⟩ true "k").1 = true ∧
    (removeKeyOrURL (removeKeyOrURL ⟨["k", "k"], []⟩ true "k").2 true "k").1
      = true := by decide

/-- C5 (amended): on any pool state in which the upstream occurs at most
once in the selected set, evicting it twice in a row returns true then false
when it is present; and evicting an absent upstream returns false and leaves
the pool unchanged (this part holds for every pool state). -/
theorem evict_idempotent_amended (p : Pool) (isKey : Bool) (x : String)
    (h : (if isKey then p.keys else p.urls).count x ≤ 1) :
    (x ∈ (if isKey then p.keys else p.urls) →
       (removeKeyOrURL p isKey x).1 = true ∧
       (removeKeyOrURL (removeKeyOrURL p isKey x).2 isKey x).1 = false) ∧
    (x ∉ (if isKey then p.keys else p.urls) →
       removeKeyOrURL p isKey x = (false, p)) := by
  cases isKey
  · simp only [Bool.false_eq_true, if_false] at h ⊢
    constructor
    · intro hm
      obtain ⟨h1, h2⟩ := removeSwapLast_twice x p.urls h hm
      exact ⟨by simp [removeKeyOrURL, h1], by simp [removeKeyOrURL, h2]⟩
    · intro hm
      simp [removeKeyOrURL, removeSwapLast_not_mem x p.urls hm]
  · simp only [if_true] at h ⊢
    constructor
    · intro hm
      obtain ⟨h1, h2⟩ := removeSwapLast_twice x p.keys h hm
      exact ⟨by simp [removeKeyOrURL, h1], by simp [removeKeyOrURL, h2]⟩
    · intro hm
      simp [removeKeyOrURL, removeSwapLast_not_mem x p.keys hm]

/-- C5 witness: the amended theorem applied to the singleton key set ["k"]:
evicting "k" twice returns true then false. -/
theorem evict_idempotent_witness :
    (removeKeyOrURL ⟨["k"], []⟩ true "k").1 = true ∧
    (removeKeyOrURL (removeKeyOrURL ⟨["k"], []⟩ true "k").2 true "k").1
      = false :=
  (evict_idempotent_amended ⟨["k"], []⟩ true "k" (by decide)).1 (by decide)

/-! ### Claim C6 -/

/-- C6 counterexample: a configuration consisting of one blank line parses
successfully and classifies the blank line as the credential "", refuting
the claim that blank lines contribute nothing and that parsing fails when
the list is empty after discarding comments and blanks. -/
theorem parse_blank_line_cex :
    parseLines [""] = Except.ok ([""], ([] : List String)) := by decide

/-- C6 (amended): lines whose trimmed text begins with "#" or "//" are
ignored; every other line — including a blank or whitespace-only line, which
trims to the empty string and is classified as a credential — counts as
content; parsing fails with the empty-configuration error exactly when every
line is a comment; and on success the credential and endpoint lists are
exactly the trimmed non-comment lines split by the "http" prefix test. -/
theorem parse_amended (lines : List String) :
    (parseLines lines = .error "apis.txt is empty" ↔
       lines.all (fun l => isCommentLine (trimString l)) = true) ∧
    (∀ keys urls, parseLines lines = .ok (keys, urls) →
       keys = (lines.map trimString).filter
           (fun t => !isCommentLine t && !hasPrefixStr t "http") ∧
       urls = (lines.map trimString).filter
           (fun t => !isCommentLine t && hasPrefixStr t "http")) :=
  ⟨parseLines_error_iff lines, fun keys urls h => parseLines_ok lines keys urls h⟩

/-- C6 witness: the amended theorem applied to the one-blank-line
configuration, exhibiting the blank line surviving as the credential "". -/
theorem parse_amended_witness :
    [""] = ([""].map trimString).filter
        (fun t => !isCommentLine t && !hasPrefixStr t "http") ∧
    ([] : List String) = ([""].map trimString).filter
        (fun t => !isCommentLine t && hasPrefixStr t "http") :=
  (parse_amended [""]).2 [""] [] (by decide)

/-! ### Claim C8 -/

/-- C8 counterexample: an account upstream whose test call decodes to a
response with a present but empty translations array (zero translation
entries) is classified alive by checkAlive, refuting the "at least one
translation entry" condition. -/
theorem probe_empty_translations_cex :
    sysEmptyTrans.keyProbe "k" = .ok ⟨some [], ""⟩ ∧
    (checkAlive sysEmptyTrans.keyProbe sysEmptyTrans.urlProbe true "k").1
      = true := ⟨rfl, by decide⟩

/-- C8 (amended): for every account-family upstream and every adapter
outcome, checkAlive returns no error (the Go error component is always nil),
and classifies the upstream alive iff the call returned a decodable response
whose translations field is present (non-nil) — even when that field holds
zero entries; any transport error, quota-exceeded message or absent
translations field yields dead. -/
theorem probe_account_amended (kp : String → Except GoErr DeepLResp)
    (up : String → Except GoErr DeepLXResp) (k : String) :
    (checkAlive kp up true k).2 = none ∧
    ((checkAlive kp up true k).1 = true ↔
       ∃ r : DeepLResp, kp k = .ok r ∧ r.translations ≠ none) := by
  constructor
  · unfold checkAlive
    cases h : kp k with
    | error e => simp
    | ok r => cases ht : r.translations <;> simp [ht]
  · unfold checkAlive
    cases h : kp k with
    | error e => simp [h]
    | ok r =>
      cases ht : r.translations with
      | none => simp [h, ht]
      | some ts => simp [h, ht]

/-! ### Claim C9 -/

/-- C9: invoking runCheck while the isChecking flag is set fails immediately
with errIsChecking and leaves the whole state — both alive sets and the flag
— unchanged; when the refresh does proceed, the deferred assignment clears
the flag on every exit path, and in particular a configuration-read failure
returns the error with the state unchanged and the flag cleared. -/
theorem refresh_mutex_spec (s : Sys) :
    (s.isChecking = true → runCheck s = (.error .isChecking, s)) ∧
    (s.isChecking = false → (runCheck s).2.isChecking = false) ∧
    (∀ m, s.isChecking = false → parseKeysAndURLs s.config = .error m →
       runCheck s = (.error (.cfg m), s)) := by
  refine ⟨?_, ?_, ?_⟩
  · intro h
    simp [runCheck, h]
  · intro h
    simp [runCheck, h]
  · intro m h hp
    cases s with
    | mk pool b cfg kp up calls =>
      simp only at h hp
      subst h
      simp [runCheck, runCheckBody, hp]

/-- C9 witness: on a state with the flag set, runCheck returns the
errIsChecking error and the unchanged state. -/
theorem refresh_mutex_witness :
    runCheck sysBusy = (.error .isChecking, sysBusy) :=
  (refresh_mutex_spec sysBusy).1 rfl

/-! ### Claim C1 -/

/-- C1 counterexample: an iteration entered with the forced override active
(pool ["k"] / ["u"]) whose account attempt fails at transport level loops
back with the override still active: the step result is a retry carrying
force = true, where the claimed consume-once semantics requires force =
false for the retry caused by the forced attempt failing. -/
theorem force_override_cex :
    (attempt true (some reqEN) true envC1).retryForce = some true := by decide

/-- C1 (amended): forceUseDeepL is declared before the reTranslate label and
never reset, so once the override is set it persists for every later retry
of the request: an iteration entered with the override active either
terminates or retries with the override still active, and while active the
selection block is skipped, forcing the account family (use = 0) without
consuming randomness. -/
theorem force_override_persists_amended (ec : Bool) (body : Option DeepLXReq)
    (env : Env) (p : Pool) (r : List Nat) :
    (attempt ec body true env).keepsForce = true ∧
    selectUse true p r = (0, r) :=
  ⟨attempt_keepsForce ec body env, rfl⟩

/-! ### Claim C2 -/

/-- C2 counterexample: completeness verification on, pool ["k"] / ["u"]; the
url attempt returns "hello" (no Han character), forcing the DeepL override;
the forced key attempt fails and evicts the last key; the next iteration is
still forced with an empty key set and urls still alive, so the guard
passes, selection is skipped, and rand.IntN is called with bound 0 — a
runtime panic, refuting in-bounds selection on forced retries. -/
theorem forced_selection_panic_cex :
    (dispatch true (some reqEN) 5 false envC2).1 = .panicked := by decide

/-- C2 (amended): an attempt entered without the forced override never
panics (after the exhaustion guard the chosen family's alive set is
non-empty, so the uniformly-random index is in bounds), and with
completeness verification disabled — where the override can never be set —
the whole dispatch loop never panics; but on a retry entered with the
override active the account set may be empty and selection panics. -/
theorem selection_in_bounds_amended (ec : Bool) (body : Option DeepLXReq)
    (env : Env) (fuel : Nat) :
    (attempt ec body false env).isPanicStep = false ∧
    ((dispatch false body fuel false env).1).isPanicO = false :=
  ⟨attempt_no_panic_unforced ec body env,
   dispatch_ec_false_no_panic body fuel env⟩

/-! ### Claim C3 -/

/-- C3: with both alive sets empty at the top of an attempt, the engine runs
a synchronous refresh: errIsChecking maps to the busy 500 response, any
other refresh error to a 500 carrying that error's message, a refresh that
leaves both sets empty to the no-upstreams 500, and otherwise dispatch
proceeds with the refreshed state; a terminal guard outcome is the
iteration's outcome. -/
theorem poolExhaustion_spec (ec : Bool) (body : Option DeepLXReq)
    (force : Bool) (env : Env)
    (h : env.sys.pool.keys = [] ∧ env.sys.pool.urls = []) :
    (env.sys.isChecking = true →
       poolGuard env.sys = (some (.httpError 500 busyMsg), env.sys)) ∧
    (∀ m, env.sys.isChecking = false →
       parseKeysAndURLs env.sys.config = .error m →
       poolGuard env.sys = (some (.httpError 500 m), env.sys)) ∧
    (∀ ks us, env.sys.isChecking = false →
       parseKeysAndURLs env.sys.config = .ok (ks, us) →
       (((runCheck env.sys).2.pool.keys = [] ∧
           (runCheck env.sys).2.pool.urls = []) →
          poolGuard env.sys
            = (some (.httpError 500 noAvailMsg), (runCheck env.sys).2)) ∧
       (¬((runCheck env.sys).2.pool.keys = [] ∧
           (runCheck env.sys).2.pool.urls = []) →
          poolGuard env.sys = (none, (runCheck env.sys).2))) ∧
    (∀ o, (poolGuard env.sys).1 = some o →
       attempt ec body force env
         = .done o { env with sys := (poolGuard env.sys).2 }) := by
  refine ⟨?_, ?_, ?_, ?_⟩
  · intro hc
    have hr := runCheck_busy env.sys hc
    simp only [poolGuard, hr]
    rw [if_pos h]
  · intro m hc hp
    have hr := runCheck_cfg_error env.sys m hc hp
    simp only [poolGuard, hr]
    rw [if_pos h]
  · intro ks us hc hp
    have hr := runCheck_ok env.sys ks us hc hp
    constructor
    · intro he2
      rw [hr] at he2
      simp only [poolGuard, hr]
      rw [if_pos h, if_pos he2]
    · intro he2
      rw [hr] at he2
      simp only [poolGuard, hr]
      rw [if_pos h, if_neg he2]
  · intro o ho
    rcases hg : poolGuard env.sys with ⟨g, s2⟩
    rw [hg] at ho
    simp only at ho
    subst ho
    simp [attempt, hg]

/-- C3 witness: on the exhausted pool with a refresh already in progress,
the guard returns the busy 500 outcome with the state untouched. -/
theorem poolExhaustion_witness :
    poolGuard sysBusy = (some (.httpError 500 busyMsg), sysBusy) :=
  (poolExhaustion_spec true none false envBusy ⟨rfl, rfl⟩).1 rfl

/-! ### Claim C7 -/

/-- C7 counterexample: with both alive sets empty and a malformed body, the
engine first runs the synchronous refresh — one probe network call for the
configured key — and, the refresh leaving the pool empty, responds with the
no-upstreams 500 rather than the claimed MalformedRequest rejection, and
with a network call already made. -/
theorem malformed_request_pool_empty_cex :
    (dispatch true none 3 false envC7).1
      = .httpError 500 "no available keys and urls" ∧
    ((dispatch true none 3 false envC7).2).sys.calls = 1 := by decide

/-- C7 (amended): when the pool is not exhausted at the top of the attempt,
a malformed body is rejected with the 400 invalid-request-body response
before any upstream selection or translation call: the state, the prepared
post oracles and the call counter are unchanged (at most one random number
is consumed by family pre-selection, which the code runs before decoding);
in the exhausted-pool state, however, the synchronous refresh and its probe
network calls run first and their failure preempts the rejection. -/
theorem malformed_request_amended (ec force : Bool) (env : Env)
    (h : ¬(env.sys.pool.keys = [] ∧ env.sys.pool.urls = [])) :
    attempt ec none force env
      = .done (.httpError 400 "invalid request body")
          { env with rand := (selectUse force env.sys.pool env.rand).2 } := by
  have hg : poolGuard env.sys = (none, env.sys) := poolGuard_not_empty env.sys h
  simp [attempt, hg, attemptBody]

/-- C7 witness: the amended theorem on the healthy two-upstream state. -/
theorem malformed_request_witness :
    attempt true none false envKU
      = .done (.httpError 400 "invalid request body")
          { envKU with rand := (selectUse false envKU.sys.pool envKU.rand).2 } :=
  malformed_request_amended true false envKU (by decide)

/-! ### Claim C10 -/

/-- C10: the completeness heuristic is target-language independent: for an
arbitrary request body `req` (in particular arbitrary target_lang) and an
arbitrary url-attempt result `d` with no Han character, the successful
endpoint attempt is judged incomplete and routed to the forced-retry path —
the judgment reads only the result text through containsChinese, which
tests exactly for Han-script characters ("hello" has none, "你好" has). -/
theorem completeness_heuristic_lang_independent (req : DeepLXReq) (d : String)
    (h : containsChinese d = false) :
    attempt true (some req) false (envC10 d)
      = .retry true
          { sys := { sysKU with calls := 1 }, rand := [], keyPosts := [],
            urlPosts := [], google := googleFail } ∧
    containsChinese "hello" = false ∧ containsChinese "你好" = true := by
  refine ⟨?_, by decide, by decide⟩
  show finishAttempt true 1 req ⟨200, 0, d, []⟩ false
      { sys := { sysKU with calls := 1 }, rand := [], keyPosts := [],
        urlPosts := [], google := googleFail }
    = .retry true
        { sys := { sysKU with calls := 1 }, rand := [], keyPosts := [],
          urlPosts := [], google := googleFail }
  unfold finishAttempt
  dsimp only
  rw [h]
  rfl

/-- C10 witness: the judged-incomplete routing at the concrete request
reqEN (target language "EN") whose endpoint result is "hello". -/
theorem completeness_heuristic_witness :
    attempt true (some reqEN) false (envC10 "hello")
      = .retry true
          { sys := { sysKU with calls := 1 }, rand := [], keyPosts := [],
            urlPosts := [], google := googleFail } ∧
    containsChinese "hello" = false ∧ containsChinese "你好" = true :=
  completeness_heuristic_lang_independent reqEN "hello" (by decide)

end DLX
